import Mathlib

/-!
Verification development for the `ethonline25` content-rental dApp.

The repository encrypts a file client-side (AES-GCM), publishes the
ciphertext to IPFS via Lighthouse, wraps the symmetric key with the Lit
threshold-custody network under a declarative access-control policy, and
gates decryption behind an on-chain rental contract (`RentAgent`).

This file shallowly embeds the key-custody core:
  * `ethToHex` / the wei computation of `RentModal.tsx`,
  * `importAesKey` / `decryptIpfsFile` of `lib/cryptoHelpers.ts`,
  * `generateSiweMessage`, `validateACCAndAuthSig`, `saveKeyToLitWithRetry`
    and `getKeyFromLit` of `lib/litHelpers.ts`,
  * the access-control-condition builders of `LighthouseUploader`
    (`handleUploadWithMeta`, `handleRetryPersist`),
  * the rental orchestration of `RentModal.handlePayAndFetch`, including
    its bounded key-recovery poll loop,
and proves the specified properties about those embeddings.

Browser / JS primitives (WebCrypto AES-GCM, the Lit SDK's encrypt/decrypt,
wallet signing, IPFS gateway fetch, wall-clock time) are modelled as
explicit oracle parameters; JS strings are Lean `String`s, byte arrays are
`List Nat` with each element an 8-bit value, and JS truthiness of strings
("" is falsy) is modelled explicitly where the source relies on it.
-/

namespace EthOnline

/-- JS `a || b` for strings: the empty string is falsy. -/
def jsOr (a b : String) : String := if a = "" then b else a

/-- Numeric value of a decimal-digit character list, as JS `BigInt(str)`
evaluates a string of digits (most-significant first). -/
def digitsToNat (cs : List Char) : Nat :=
  cs.foldl (fun acc c => acc * 10 + (c.toNat - 48)) 0

/-- `startsWithChars pat s` : `pat` is a prefix of `s` (character lists). -/
def startsWithChars : List Char → List Char → Bool
  | [], _ => true
  | _ :: _, [] => false
  | p :: ps, c :: cs => p = c && startsWithChars ps cs

/-- `hasSubChars pat s` : `pat` occurs contiguously somewhere in `s`;
models JS `String.prototype.includes`. -/
def hasSubChars (pat : List Char) : List Char → Bool
  | [] => startsWithChars pat []
  | c :: cs => startsWithChars pat (c :: cs) || hasSubChars pat cs

/-- JS `s.includes(pat)` on strings. -/
def strIncludes (s pat : String) : Bool := hasSubChars pat.data s.data

theorem startsWithChars_self_append (p ys : List Char) :
    startsWithChars p (p ++ ys) = true := by
  induction p with
  | nil => rfl
  | cons c cs ih => simp [startsWithChars, ih]

theorem hasSubChars_nil_pat (l : List Char) : hasSubChars [] l = true := by
  cases l with
  | nil => rfl
  | cons c cs => rfl

theorem hasSubChars_self_append (p ys : List Char) :
    hasSubChars p (p ++ ys) = true := by
  cases p with
  | nil => exact hasSubChars_nil_pat ys
  | cons a as =>
    have h1 : startsWithChars (a :: as) ((a :: as) ++ ys) = true :=
      startsWithChars_self_append _ _
    rw [List.cons_append] at h1 ⊢
    show (startsWithChars (a :: as) (a :: (as ++ ys))
        || hasSubChars (a :: as) (as ++ ys)) = true
    rw [h1]
    simp

theorem hasSubChars_append_of (p xs rest : List Char)
    (h : hasSubChars p rest = true) : hasSubChars p (xs ++ rest) = true := by
  induction xs with
  | nil => simpa using h
  | cons x xs ih =>
    show (startsWithChars p (x :: (xs ++ rest)) || hasSubChars p (xs ++ rest)) = true
    rw [ih]
    simp

/-! ## `ethToHex` (src/src/RentModal.tsx, lines 16-24)

```js
const ethToHex = (eth: string) => {
  const sanitized = String(eth).replace(/[^0-9.]/g, '') || '0';
  const [whole, frac = ''] = sanitized.split('.');
  const wholeWei = BigInt(whole || '0') * BigInt(10 ** 18);
  const fracPadded = (frac + '0'.repeat(18)).slice(0, 18);
  const fracWei = BigInt(fracPadded);
  const wei = wholeWei + fracWei;
  return '0x' + wei.toString(16);
};
```
(`10 ** 18` is exactly representable as a JS double, so `BigInt(10 ** 18)`
is exactly `10^18`.) -/

/-- `String(eth).replace(/[^0-9.]/g, '') || '0'`. -/
def ethSanitized (eth : String) : String :=
  jsOr (String.mk (eth.data.filter (fun c => c.isDigit || c = '.'))) "0"

/-- The `whole` binding: first segment of `sanitized.split('.')`. -/
def ethWholeSeg (eth : String) : String :=
  ((ethSanitized eth).splitOn ".").headI

/-- The `frac = ''` binding: second segment of `sanitized.split('.')`,
defaulting to the empty string (segments past the second are dropped by the
array destructuring). -/
def ethFracSeg (eth : String) : String :=
  (((ethSanitized eth).splitOn ".").tail).headD ""

/-- The `wei` value computed by `ethToHex`:
`wholeWei = BigInt(whole || '0') * BigInt(10 ** 18)`,
`fracPadded = (frac + '0'.repeat(18)).slice(0, 18)`,
`wei = wholeWei + BigInt(fracPadded)`. -/
def ethWei (eth : String) : Nat :=
  digitsToNat (jsOr (ethWholeSeg eth) "0").data * 10 ^ 18
    + digitsToNat (((ethFracSeg eth).data ++ List.replicate 18 '0').take 18)

/-- `ethToHex` itself: `'0x' + wei.toString(16)` (lowercase hex digits). -/
def ethToHex (eth : String) : String :=
  "0x" ++ String.mk (Nat.toDigits 16 (ethWei eth))

theorem digitsToNat_f_append (a : Nat) (xs ys : List Char) :
    (xs ++ ys).foldl (fun acc c => acc * 10 + (c.toNat - 48)) a
      = ys.foldl (fun acc c => acc * 10 + (c.toNat - 48))
          (xs.foldl (fun acc c => acc * 10 + (c.toNat - 48)) a) := by
  simp [List.foldl_append]

theorem digitsToNat_general (a : Nat) (ys : List Char) :
    ys.foldl (fun acc c => acc * 10 + (c.toNat - 48)) a
      = a * 10 ^ ys.length + digitsToNat ys := by
  induction ys generalizing a with
  | nil => simp [digitsToNat]
  | cons c cs ih =>
    simp only [List.foldl_cons, List.length_cons, digitsToNat]
    rw [ih, ih (0 * 10 + (c.toNat - 48))]
    ring

theorem digitsToNat_append (xs ys : List Char) :
    digitsToNat (xs ++ ys) = digitsToNat xs * 10 ^ ys.length + digitsToNat ys := by
  unfold digitsToNat
  rw [digitsToNat_f_append, digitsToNat_general]
  rfl

theorem digitsToNat_replicate_zero (n : Nat) :
    digitsToNat (List.replicate n '0') = 0 := by
  induction n with
  | zero => rfl
  | succ k ih =>
    rw [List.replicate_succ' k '0', digitsToNat_append, ih]
    simp [digitsToNat]

/-- **C10.** For every price string, the wei value computed by `ethToHex`
equals (whole part as integer) · 10^18 plus the integer value of the first
18 fractional digits (right-padded with zeros, i.e. scaled by
10^(18 − number of kept fractional digits)), after stripping every
character other than digits and `'.'` and using only the segment before the
second `'.'`; fractional digits beyond the 18th are truncated. -/
theorem C10_ethToHex_wei_formula (eth : String) :
    ethWei eth
      = digitsToNat (ethWholeSeg eth).data * 10 ^ 18
        + digitsToNat ((ethFracSeg eth).data.take 18)
            * 10 ^ (18 - min 18 (ethFracSeg eth).data.length) := by
  unfold ethWei
  have hwhole : digitsToNat (jsOr (ethWholeSeg eth) "0").data
      = digitsToNat (ethWholeSeg eth).data := by
    unfold jsOr
    by_cases h : ethWholeSeg eth = ""
    · simp [h, digitsToNat]
    · simp [h]
  rw [hwhole]
  congr 1
  set f := (ethFracSeg eth).data with hf
  by_cases h : 18 ≤ f.length
  · rw [List.take_append_of_le_length h]
    have : min 18 f.length = 18 := Nat.min_eq_left h
    simp [this]
  · push_neg at h
    have hle : f.length ≤ 18 := Nat.le_of_lt h
    have htake : (f ++ List.replicate 18 '0').take 18
        = f ++ List.replicate (18 - f.length) '0' := by
      rw [List.take_append_eq_append_take]
      congr 1
      · exact List.take_of_length_le hle
      · rw [List.take_replicate]
        congr 1
        omega
    rw [htake, digitsToNat_append, digitsToNat_replicate_zero,
        List.take_of_length_le hle]
    have hmin : min 18 f.length = f.length := Nat.min_eq_right hle
    simp [hmin]

/-! ## `importAesKey` (src/src/lib/cryptoHelpers.ts, lines 7-49)

```js
keyBytes = tryBase64(rawKey) || tryHex(rawKey) || new TextEncoder().encode(rawKey);
```
`tryBase64` uses `window.atob` (the browser path), whose semantics is the
WHATWG forgiving-base64 decode: remove ASCII whitespace; if the length is a
multiple of 4, strip up to two trailing `'='`; fail if the remaining length
is ≡ 1 (mod 4) or any character is outside the base64 alphabet; otherwise
decode 6-bit groups. `tryHex` fires only on `/^[0-9a-fA-F]+$/` inputs and
builds `Uint8Array(s.length / 2)` (ECMAScript `ToIndex` truncates the
fractional length for odd inputs), filling byte `i` from
`parseInt(s.substr(i*2, 2), 16)`. Characters are compared through their
code points (`Char.toNat`). -/

/-- ASCII whitespace (TAB, LF, FF, CR, SPACE), as removed by
forgiving-base64 decoding. -/
def isAsciiWs (c : Char) : Bool :=
  c.toNat = 9 || c.toNat = 10 || c.toNat = 12 || c.toNat = 13 || c.toNat = 32

/-- Value of a base64-alphabet character, `none` outside the alphabet. -/
def b64Val (c : Char) : Option Nat :=
  if 65 ≤ c.toNat ∧ c.toNat ≤ 90 then some (c.toNat - 65)
  else if 97 ≤ c.toNat ∧ c.toNat ≤ 122 then some (c.toNat - 97 + 26)
  else if 48 ≤ c.toNat ∧ c.toNat ≤ 57 then some (c.toNat - 48 + 52)
  else if c.toNat = 43 then some 62
  else if c.toNat = 47 then some 63
  else none

/-- Strip up to two trailing `'='` when the length is a multiple of 4. -/
def b64StripPad (cs : List Char) : List Char :=
  if cs.length % 4 = 0 then
    match cs.reverse with
    | '=' :: '=' :: r => r.reverse
    | '=' :: r => r.reverse
    | _ => cs
  else cs

/-- Reassemble 6-bit values into bytes (final chunk of 2 or 3 values yields
1 or 2 bytes). -/
def b64Bytes : List Nat → List Nat
  | a :: b :: c :: d :: rest =>
      (a * 4 + b / 16) :: ((b % 16) * 16 + c / 4) :: ((c % 4) * 64 + d) :: b64Bytes rest
  | [a, b] => [a * 4 + b / 16]
  | [a, b, c] => [a * 4 + b / 16, (b % 16) * 16 + c / 4]
  | _ => []

/-- `window.atob`, i.e. forgiving-base64 decode; `none` models the thrown
`InvalidCharacterError` that `tryBase64` catches (returning `null`). -/
def atob (s : String) : Option (List Nat) :=
  let cs := b64StripPad (s.data.filter (fun c => !isAsciiWs c))
  if cs.length % 4 = 1 then none
  else (cs.mapM b64Val).map b64Bytes

/-- `/^[0-9a-fA-F]+$/.test s`. -/
def matchesHexRegex (s : String) : Bool :=
  !s.data.isEmpty && s.data.all (fun c =>
    (48 ≤ c.toNat && c.toNat ≤ 57) || (97 ≤ c.toNat && c.toNat ≤ 102)
      || (65 ≤ c.toNat && c.toNat ≤ 70))

/-- Value of one hex digit (only applied to `[0-9a-fA-F]`). -/
def hexVal (c : Char) : Nat :=
  if 48 ≤ c.toNat ∧ c.toNat ≤ 57 then c.toNat - 48
  else if 97 ≤ c.toNat ∧ c.toNat ≤ 102 then c.toNat - 97 + 10
  else if 65 ≤ c.toNat ∧ c.toNat ≤ 70 then c.toNat - 65 + 10
  else 0

/-- Bytes from consecutive hex-digit pairs; a trailing lone digit is
dropped (the `Uint8Array` length truncates to ⌊len/2⌋ and the loop's extra
write past the end is ignored). -/
def hexPairsBytes : List Char → List Nat
  | a :: b :: rest => (hexVal a * 16 + hexVal b) :: hexPairsBytes rest
  | _ => []

/-- `tryHex` of `importAesKey`. -/
def tryHex (s : String) : Option (List Nat) :=
  if matchesHexRegex s then some (hexPairsBytes s.data) else none

/-- UTF-8 encoding of one scalar value (`TextEncoder`). -/
def utf8EncodeChar (c : Char) : List Nat :=
  let n := c.toNat
  if n < 128 then [n]
  else if n < 2048 then [192 + n / 64, 128 + n % 64]
  else if n < 65536 then [224 + n / 4096, 128 + n / 64 % 64, 128 + n % 64]
  else [240 + n / 262144, 128 + n / 4096 % 64, 128 + n / 64 % 64, 128 + n % 64]

/-- `new TextEncoder().encode(s)`. -/
def utf8Encode (s : String) : List Nat :=
  (s.data.map utf8EncodeChar).flatten

/-- The byte string `keyBytes` computed by `importAesKey`:
`tryBase64(rawKey) || tryHex(rawKey) || new TextEncoder().encode(rawKey)`. -/
def importAesKeyBytes (rawKey : String) : List Nat :=
  match atob rawKey with
  | some b => b
  | none =>
    match tryHex rawKey with
    | some b => b
    | none => utf8Encode rawKey

/-- A hex-digit character (the `matchesHexRegex` character class). -/
def isHexDigitChar (c : Char) : Bool :=
  (48 ≤ c.toNat && c.toNat ≤ 57) || (97 ≤ c.toNat && c.toNat ≤ 102)
    || (65 ≤ c.toNat && c.toNat ≤ 70)

theorem matchesHexRegex_all {s : String} (h : matchesHexRegex s = true) :
    ∀ c ∈ s.data, isHexDigitChar c = true := by
  intro c hc
  unfold matchesHexRegex at h
  simp only [Bool.and_eq_true, List.all_eq_true] at h
  exact h.2 c hc

theorem hexDigit_b64Val_isSome {c : Char} (h : isHexDigitChar c = true) :
    (b64Val c).isSome = true := by
  unfold isHexDigitChar at h
  simp only [Bool.or_eq_true, Bool.and_eq_true, decide_eq_true_eq] at h
  unfold b64Val
  split_ifs with h1 h2 h3 h4 h5 <;> simp_all
  omega

theorem hexDigit_not_ws {c : Char} (h : isHexDigitChar c = true) :
    isAsciiWs c = false := by
  unfold isHexDigitChar at h
  simp only [Bool.or_eq_true, Bool.and_eq_true, decide_eq_true_eq] at h
  unfold isAsciiWs
  simp only [Bool.or_eq_false_iff, decide_eq_false_iff_not]
  omega

theorem hexDigit_ne_eq {c : Char} (h : isHexDigitChar c = true) : c ≠ '=' := by
  unfold isHexDigitChar at h
  simp only [Bool.or_eq_true, Bool.and_eq_true, decide_eq_true_eq] at h
  intro hc
  subst hc
  simp at h

theorem b64StripPad_no_pad {cs : List Char} (h : '=' ∉ cs) :
    b64StripPad cs = cs := by
  unfold b64StripPad
  have h' : '=' ∉ cs.reverse := by simpa using h
  split
  · split
    · next r heq =>
        exact absurd (by rw [heq]; exact List.mem_cons_self _ _) h'
    · next r heq =>
        exact absurd (by rw [heq]; exact List.mem_cons_self _ _) h'
    · rfl
  · rfl

theorem mapM_b64Val_isSome {l : List Char}
    (h : ∀ c ∈ l, (b64Val c).isSome = true) :
    ∃ v, l.mapM b64Val = some v := by
  induction l with
  | nil => exact ⟨[], rfl⟩
  | cons c cs ih =>
    obtain ⟨v, hv⟩ := ih (fun x hx => h x (List.mem_cons_of_mem _ hx))
    obtain ⟨a, ha⟩ := Option.isSome_iff_exists.mp (h c (List.mem_cons_self _ _))
    exact ⟨a :: v, by simp only [List.mapM_cons, ha, hv, Option.some_bind]; rfl⟩

/-- **C2 (counterexample).** The hex-pattern input `"abcd"` is NOT decoded
as hex: `tryBase64` runs first and succeeds (every hex digit is a valid
base64 character and the length 4 is acceptable), so `importAesKey` yields
the base64 bytes `[105, 183, 29]`, not the hex bytes `[171, 205]`. -/
theorem C2_counterexample_hex_decoded_as_base64 :
    matchesHexRegex "abcd" = true
      ∧ hexPairsBytes "abcd".data = [171, 205]
      ∧ importAesKeyBytes "abcd" = [105, 183, 29]
      ∧ importAesKeyBytes "abcd" ≠ hexPairsBytes "abcd".data := by
  decide

/-- **C2 (amended).** `importAesKey` prefers base64, not hex: whenever the
input matches the hex pattern and its length is not ≡ 1 (mod 4) — in
particular for every well-formed (even-length) hex key — the base64
decoder succeeds first and its output is the key material; the hex
interpretation is never consulted. -/
theorem C2_importAesKey_base64_first (s : String)
    (hhex : matchesHexRegex s = true) (hlen : s.data.length % 4 ≠ 1) :
    ∃ b, atob s = some b ∧ importAesKeyBytes s = b := by
  have hall := matchesHexRegex_all hhex
  have hfilter : s.data.filter (fun c => !isAsciiWs c) = s.data :=
    List.filter_eq_self.mpr (fun c hc => by
      simp [hexDigit_not_ws (hall c hc)])
  have hnopad : '=' ∉ s.data := fun hmem => hexDigit_ne_eq (hall _ hmem) rfl
  have hstrip : b64StripPad (s.data.filter (fun c => !isAsciiWs c)) = s.data := by
    rw [hfilter]
    exact b64StripPad_no_pad hnopad
  obtain ⟨v, hv⟩ := mapM_b64Val_isSome
    (fun c hc => hexDigit_b64Val_isSome (hall c hc))
  refine ⟨b64Bytes v, ?_, ?_⟩
  · unfold atob
    simp only [hstrip, if_neg hlen, hv, Option.map_some']
  · unfold importAesKeyBytes
    have hatob : atob s = some (b64Bytes v) := by
      unfold atob
      simp only [hstrip, if_neg hlen, hv, Option.map_some']
    rw [hatob]

/-- Closed witness for the amended C2 at the hex-pattern input `"abcd"`. -/
theorem C2_importAesKey_base64_first_witness :
    matchesHexRegex "abcd" = true ∧ "abcd".data.length % 4 ≠ 1
      ∧ ∃ b, atob "abcd" = some b ∧ importAesKeyBytes "abcd" = b :=
  ⟨by decide, by decide,
    C2_importAesKey_base64_first "abcd" (by decide) (by decide)⟩

/-! ## `decryptIpfsFile` (src/src/lib/cryptoHelpers.ts, lines 73-93)

AES-GCM itself runs inside WebCrypto; it is modelled as an oracle
`aesGcmDecrypt iv key ciphertext` returning `none` exactly when the
operation rejects (authentication-tag mismatch / wrong key), so a failed
tag check can never produce an `ok` plaintext. The event list records each
invocation of the oracle. -/

/-- One WebCrypto invocation performed by `decryptIpfsFile`. -/
inductive CipherEvent
  | gcmDecrypt (iv : List Nat) (ciphertext : List Nat)
deriving DecidableEq, Repr

/-- Failures of `decryptIpfsFile`: the explicit size guard, or the
rejected `crypto.subtle.decrypt` promise. -/
inductive DecryptError
  | payloadTooSmall (msg : String)
  | operationFailed
deriving DecidableEq, Repr

/-- `decryptIpfsFile` after the gateway fetch: `bytes` is the fetched
encrypted blob. -/
def decryptIpfsFile
    (aesGcmDecrypt : List Nat → List Nat → List Nat → Option (List Nat))
    (bytes : List Nat) (symmetricKey : String) :
    List CipherEvent × Except DecryptError (List Nat) :=
  if bytes.length < 13 then
    ([], .error (.payloadTooSmall "Encrypted payload too small"))
  else
    let iv := bytes.take 12
    let ciphertext := bytes.drop 12
    let key := importAesKeyBytes symmetricKey
    match aesGcmDecrypt iv key ciphertext with
    | some plain => ([.gcmDecrypt iv ciphertext], .ok plain)
    | none => ([.gcmDecrypt iv ciphertext], .error .operationFailed)

/-- **C7.** Every fetched blob of at least 13 bytes is split with exactly
the first 12 bytes as IV and all remaining bytes as ciphertext+tag for
AES-GCM; a blob shorter than 13 bytes is rejected with the distinct
`Encrypted payload too small` error before any decryption call; an
authentication failure (oracle `none`) surfaces as a decryption error,
never as an `ok` output. -/
theorem C7_decryptIpfsFile_split
    (aesGcmDecrypt : List Nat → List Nat → List Nat → Option (List Nat))
    (bytes : List Nat) (symmetricKey : String) :
    (bytes.length < 13 →
      decryptIpfsFile aesGcmDecrypt bytes symmetricKey
        = ([], .error (.payloadTooSmall "Encrypted payload too small")))
    ∧ (13 ≤ bytes.length →
        (decryptIpfsFile aesGcmDecrypt bytes symmetricKey).1
            = [.gcmDecrypt (bytes.take 12) (bytes.drop 12)]
        ∧ (bytes.take 12).length = 12
        ∧ bytes.take 12 ++ bytes.drop 12 = bytes
        ∧ (aesGcmDecrypt (bytes.take 12) (importAesKeyBytes symmetricKey)
              (bytes.drop 12) = none →
            (decryptIpfsFile aesGcmDecrypt bytes symmetricKey).2
              = .error .operationFailed)
        ∧ ∀ plain,
            aesGcmDecrypt (bytes.take 12) (importAesKeyBytes symmetricKey)
                (bytes.drop 12) = some plain →
            (decryptIpfsFile aesGcmDecrypt bytes symmetricKey).2 = .ok plain) := by
  constructor
  · intro h
    simp [decryptIpfsFile, h]
  · intro h
    have hlt : ¬ bytes.length < 13 := Nat.not_lt.mpr h
    refine ⟨?_, ?_, List.take_append_drop 12 bytes, ?_, ?_⟩
    · unfold decryptIpfsFile
      simp only [if_neg hlt]
      cases hd : aesGcmDecrypt (bytes.take 12) (importAesKeyBytes symmetricKey)
          (bytes.drop 12) <;> simp [hd]
    · rw [List.length_take]
      omega
    · intro hnone
      unfold decryptIpfsFile
      simp only [if_neg hlt]
      simp [hnone]
    · intro plain hsome
      unfold decryptIpfsFile
      simp only [if_neg hlt]
      simp [hsome]

/-- Closed witness for C7 at a concrete 14-byte blob (and a 5-byte one for
the guard). -/
theorem C7_decryptIpfsFile_split_witness :
    ((5 : Nat) < 13
      ∧ decryptIpfsFile (fun _ _ ct => some ct) [1, 2, 3, 4, 5] "k"
          = ([], .error (.payloadTooSmall "Encrypted payload too small")))
    ∧ ((13 : Nat) ≤ 14
      ∧ (decryptIpfsFile (fun _ _ ct => some ct)
            [0, 1, 2, 3, 4, 5, 6, 7, 8, 9, 10, 11, 12, 13] "k").1
          = [.gcmDecrypt [0, 1, 2, 3, 4, 5, 6, 7, 8, 9, 10, 11] [12, 13]]) := by
  have h5 := (C7_decryptIpfsFile_split (fun _ _ ct => some ct) [1, 2, 3, 4, 5] "k").1
  have h14 := (C7_decryptIpfsFile_split (fun _ _ ct => some ct)
      [0, 1, 2, 3, 4, 5, 6, 7, 8, 9, 10, 11, 12, 13] "k").2
  refine ⟨⟨by decide, h5 (by decide)⟩, ⟨by decide, ?_⟩⟩
  have := (h14 (by decide)).1
  simpa using this

/-! ## Lit helpers (src/unnamed/part_001, `lib/litHelpers.ts`)

Access-control conditions and auth signatures are the dynamic JS objects
passed to the Lit SDK; they are embedded as explicit structures (the
clause shapes actually used by the repository). The Lit node network's
`encrypt`/`decrypt` endpoints are oracles. -/

deriving instance DecidableEq for Except

/-- The `returnValueTest` object of an access-control-condition clause. -/
structure ReturnValueTest where
  comparator : String
  value : String
deriving DecidableEq, Repr, Inhabited

/-- One access-control-condition clause. -/
structure AccClause where
  contractAddress : String
  standardContractType : String
  chain : String
  method : String
  parameters : List String
  returnValueTest : Option ReturnValueTest
deriving DecidableEq, Repr, Inhabited

/-- The authSig object `{sig, derivedVia, signedMessage, address}`. -/
structure LitAuthSig where
  sig : String
  derivedVia : String
  signedMessage : String
  address : String
deriving DecidableEq, Repr

/-- ASCII lowercase of one character (`toLowerCase` restricted to the
ASCII range, which covers the addresses and error messages involved). -/
def toLowerChar (c : Char) : Char :=
  if 65 ≤ c.toNat ∧ c.toNat ≤ 90 then Char.ofNat (c.toNat + 32) else c

/-- JS `s.toLowerCase()`. -/
def jsToLowerCase (s : String) : String := String.mk (s.data.map toLowerChar)

/-- litHelpers' `normalizeAddress`: `String(addr || '').toLowerCase()`
(ASCII case mapping; addresses are ASCII hex strings). -/
def normalizeAddress (addr : String) : String := jsToLowerCase addr

/-- The permissive-policy test inside `validateACCAndAuthSig`: some clause
has `returnValueTest.comparator === 'contains'` and value `'0x'`. -/
def isPermissiveACC (accessControlConditions : List AccClause) : Bool :=
  accessControlConditions.any (fun acc =>
    match acc.returnValueTest with
    | some t => t.comparator = "contains" && t.value = "0x"
    | none => false)

/-- `validateACCAndAuthSig` (part_001, lines 98-123). Returns `.ok` for an
empty list, a permissive policy, or a policy in which SOME clause's
(truthy) `returnValueTest.value` lowercases to the authSig address;
otherwise throws the mismatch error. -/
def validateACCAndAuthSig (accessControlConditions : List AccClause)
    (authSig : LitAuthSig) : Except String Unit :=
  if accessControlConditions.isEmpty then .ok ()
  else if isPermissiveACC accessControlConditions then .ok ()
  else if accessControlConditions.any (fun acc =>
      match acc.returnValueTest with
      | some t => !(t.value = "")
          && (normalizeAddress t.value = normalizeAddress authSig.address)
      | none => false) then .ok ()
  else .error ("ACC/authSig mismatch: " ++ normalizeAddress authSig.address
      ++ " not found in ACC values")

/-- The `normalizedACC` map of `saveKeyToLitWithRetry`: lowercase every
clause's `returnValueTest.value`. -/
def normalizeACC (accessControlConditions : List AccClause) : List AccClause :=
  accessControlConditions.map (fun acc =>
    { acc with returnValueTest :=
        acc.returnValueTest.map (fun t => { t with value := jsToLowerCase t.value }) })

/-- Observable steps of `saveKeyToLitWithRetry`'s retry loop. -/
inductive RetryEvent
  | wrapAttempt (i : Nat)
  | wait (ms : Nat)
deriving DecidableEq, Repr

/-- The `for (let i = 0; i < attempts; i++)` loop of
`saveKeyToLitWithRetry`: on failure of attempt `i` it records the error,
waits `1000 * (i + 1)` ms, and continues; after the last attempt it throws
the last error (`.error none` models the initial `lastErr = null` when
`attempts = 0`). `encrypt i` is the Lit `encrypt` outcome of attempt `i`
(the produced payload string already includes the base64 cipher, the data
hash and the session expiration). -/
def litRetryLoop (encrypt : Nat → Except String String) :
    Nat → Nat → Option String → List RetryEvent × Except (Option String) String
  | 0, _, lastErr => ([], .error lastErr)
  | fuel + 1, i, _ =>
    match encrypt i with
    | .ok payload => ([.wrapAttempt i], .ok payload)
    | .error e =>
      let rest := litRetryLoop encrypt fuel (i + 1) (some e)
      (.wrapAttempt i :: .wait (1000 * (i + 1)) :: rest.1, rest.2)

/-- `saveKeyToLitWithRetry` (part_001, lines 125-166): authSig field
check, value normalization, `validateACCAndAuthSig`, then the retry loop. -/
def saveKeyToLitWithRetry (encrypt : Nat → Except String String)
    (accessControlConditions : List AccClause) (authSig : LitAuthSig)
    (attempts : Nat) : List RetryEvent × Except (Option String) String :=
  if authSig.sig = "" ∨ authSig.signedMessage = "" ∨ authSig.address = "" then
    ([], .error (some "Invalid authSig"))
  else
    match validateACCAndAuthSig (normalizeACC accessControlConditions) authSig with
    | .error e => ([], .error (some e))
    | .ok _ => litRetryLoop encrypt attempts 0 none

/-- A plain-equality clause in the sense of the spec: an address-equality
test (`method` empty, comparator `'='`). -/
def isPlainEqClause (acc : AccClause) : Bool :=
  acc.method = "" && (match acc.returnValueTest with
    | some t => t.comparator = "="
    | none => false)

/-- **C4 (counterexample).** `validateACCAndAuthSig` does not check every
plain-equality clause: with authenticated address `0xaa`, the
non-permissive policy `[= 0xaa, = 0xbb]` contains an equality clause whose
value `0xbb` does not match, yet validation succeeds and
`saveKeyToLitWithRetry` proceeds to a wrap attempt. Moreover, when every
clause mismatches (policy `[= 0xbb]`), the thrown error names only the
authenticated address, not the expected value `0xbb`. -/
theorem C4_counterexample_mismatched_clause_accepted :
    (isPermissiveACC (normalizeACC
        [⟨"", "", "ethereum", "", [":userAddress"], some ⟨"=", "0xaa"⟩⟩,
         ⟨"", "", "ethereum", "", [":userAddress"], some ⟨"=", "0xbb"⟩⟩]) = false
      ∧ isPlainEqClause ⟨"", "", "ethereum", "", [":userAddress"], some ⟨"=", "0xbb"⟩⟩ = true
      ∧ normalizeAddress "0xbb" ≠ normalizeAddress "0xaa"
      ∧ validateACCAndAuthSig (normalizeACC
          [⟨"", "", "ethereum", "", [":userAddress"], some ⟨"=", "0xaa"⟩⟩,
           ⟨"", "", "ethereum", "", [":userAddress"], some ⟨"=", "0xbb"⟩⟩])
          ⟨"0xsig", "web3", "msg", "0xaa"⟩ = .ok ()
      ∧ (saveKeyToLitWithRetry (fun _ => .ok "payload")
          [⟨"", "", "ethereum", "", [":userAddress"], some ⟨"=", "0xaa"⟩⟩,
           ⟨"", "", "ethereum", "", [":userAddress"], some ⟨"=", "0xbb"⟩⟩]
          ⟨"0xsig", "web3", "msg", "0xaa"⟩ 3).1 = [.wrapAttempt 0])
    ∧ (validateACCAndAuthSig (normalizeACC
          [⟨"", "", "ethereum", "", [":userAddress"], some ⟨"=", "0xbb"⟩⟩])
          ⟨"0xsig", "web3", "msg", "0xaa"⟩
        = .error "ACC/authSig mismatch: 0xaa not found in ACC values"
      ∧ strIncludes "ACC/authSig mismatch: 0xaa not found in ACC values" "0xbb" = false
      ∧ strIncludes "ACC/authSig mismatch: 0xaa not found in ACC values" "0xaa" = true) := by
  decide

/-- **C4 (amended).** Before any wrap attempt, `saveKeyToLitWithRetry`
checks that the (non-empty, non-permissive) normalized policy contains at
least one clause whose lowercased value equals the authenticated address;
when no clause matches it fails fast — no wrap attempt is made — with a
descriptive error that identifies the authenticated address (but not the
expected clause value). -/
theorem C4_validate_fail_fast (encrypt : Nat → Except String String)
    (accessControlConditions : List AccClause) (authSig : LitAuthSig)
    (attempts : Nat)
    (hsig : ¬ authSig.sig = "") (hmsg : ¬ authSig.signedMessage = "")
    (haddr : ¬ authSig.address = "")
    (hne : ¬ (normalizeACC accessControlConditions).isEmpty = true)
    (hperm : isPermissiveACC (normalizeACC accessControlConditions) = false)
    (hnomatch : (normalizeACC accessControlConditions).any (fun acc =>
        match acc.returnValueTest with
        | some t => !(t.value = "") && (normalizeAddress t.value = normalizeAddress authSig.address)
        | none => false) = false) :
    saveKeyToLitWithRetry encrypt accessControlConditions authSig attempts
      = ([], .error (some ("ACC/authSig mismatch: "
          ++ normalizeAddress authSig.address ++ " not found in ACC values")))
    ∧ strIncludes ("ACC/authSig mismatch: "
          ++ normalizeAddress authSig.address ++ " not found in ACC values")
        (normalizeAddress authSig.address) = true := by
  constructor
  · have hval : validateACCAndAuthSig (normalizeACC accessControlConditions) authSig
        = .error ("ACC/authSig mismatch: " ++ normalizeAddress authSig.address
            ++ " not found in ACC values") := by
      unfold validateACCAndAuthSig
      rw [if_neg hne, if_neg (by simp [hperm]), if_neg (by simp [hnomatch])]
    unfold saveKeyToLitWithRetry
    rw [if_neg (by tauto), hval]
  · unfold strIncludes
    rw [String.data_append, String.data_append, List.append_assoc]
    exact hasSubChars_append_of _ _ _ (hasSubChars_self_append _ _)

/-- Closed witness for the amended C4: a policy whose only clause expects
`0xdd` fails fast for authenticated address `0xaa` with no wrap attempt. -/
theorem C4_validate_fail_fast_witness :
    saveKeyToLitWithRetry (fun _ => .ok "payload")
        [⟨"", "", "ethereum", "", [":userAddress"], some ⟨"=", "0xdd"⟩⟩]
        ⟨"0xsig", "web3", "msg", "0xaa"⟩ 3
      = ([], .error (some ("ACC/authSig mismatch: "
          ++ normalizeAddress "0xaa" ++ " not found in ACC values")))
    ∧ strIncludes ("ACC/authSig mismatch: "
          ++ normalizeAddress "0xaa" ++ " not found in ACC values")
        (normalizeAddress "0xaa") = true :=
  C4_validate_fail_fast (fun _ => .ok "payload")
    [⟨"", "", "ethereum", "", [":userAddress"], some ⟨"=", "0xdd"⟩⟩]
    ⟨"0xsig", "web3", "msg", "0xaa"⟩ 3
    (by decide) (by decide) (by decide) (by decide) (by decide) (by decide)

/-- Whether a retry event is a wrap attempt. -/
def isWrapAttempt : RetryEvent → Bool
  | .wrapAttempt _ => true
  | .wait _ => false

theorem litRetryLoop_count (encrypt : Nat → Except String String) :
    ∀ fuel i lastErr,
      (litRetryLoop encrypt fuel i lastErr).1.countP isWrapAttempt ≤ fuel := by
  intro fuel
  induction fuel with
  | zero =>
    intro i lastErr
    simp [litRetryLoop]
  | succ f ih =>
    intro i lastErr
    unfold litRetryLoop
    cases h : encrypt i with
    | ok p => simp [isWrapAttempt]
    | error e =>
      have hr := ih (i + 1) (some e)
      simp [List.countP_cons, isWrapAttempt]
      omega

theorem litRetryLoop_allFail (encrypt : Nat → Except String String)
    (err : Nat → String) :
    ∀ fuel i lastErr, 1 ≤ fuel →
      (∀ j, j < fuel → encrypt (i + j) = .error (err (i + j))) →
      litRetryLoop encrypt fuel i lastErr
        = (((List.range' i fuel).map
              (fun j => [RetryEvent.wrapAttempt j, RetryEvent.wait (1000 * (j + 1))])).flatten,
           .error (some (err (i + fuel - 1)))) := by
  intro fuel
  induction fuel with
  | zero =>
    intro i lastErr h
    omega
  | succ f ih =>
    intro i lastErr _ hfail
    have h0 : encrypt i = .error (err i) := by
      simpa using hfail 0 (Nat.succ_pos f)
    unfold litRetryLoop
    rw [h0]
    rcases Nat.eq_zero_or_pos f with hf0 | hfpos
    · subst hf0
      simp [litRetryLoop, List.range']
    · have hrest := ih (i + 1) (some (err i)) hfpos (fun j hj => by
        have h2 := hfail (j + 1) (by omega)
        have h3 : i + (j + 1) = i + 1 + j := by omega
        rw [h3] at h2
        exact h2)
      simp only [hrest, List.range'_succ, List.map_cons, List.flatten_cons]
      have heq : i + 1 + f - 1 = i + (f + 1) - 1 := by omega
      rw [heq]
      rfl

/-- **C5.** With a passing validation, `saveKeyToLitWithRetry` makes at
most `attempts` wrap attempts; when every attempt fails, it makes exactly
`attempts` attempts, waiting `1000·(i+1)` ms after the `i`-th (0-based)
failed attempt — linear backoff starting at 1 s — and throws the error of
the last attempt. -/
theorem C5_saveKeyToLit_retry (encrypt : Nat → Except String String)
    (accessControlConditions : List AccClause) (authSig : LitAuthSig)
    (attempts : Nat) (err : Nat → String)
    (hsig : ¬ authSig.sig = "") (hmsg : ¬ authSig.signedMessage = "")
    (haddr : ¬ authSig.address = "")
    (hvalid : validateACCAndAuthSig (normalizeACC accessControlConditions) authSig
        = .ok ())
    (hatt : 1 ≤ attempts) :
    (saveKeyToLitWithRetry encrypt accessControlConditions authSig
        attempts).1.countP isWrapAttempt ≤ attempts
    ∧ ((∀ j, j < attempts → encrypt j = .error (err j)) →
        saveKeyToLitWithRetry encrypt accessControlConditions authSig attempts
          = (((List.range' 0 attempts).map
                (fun j => [RetryEvent.wrapAttempt j, RetryEvent.wait (1000 * (j + 1))])).flatten,
             .error (some (err (attempts - 1))))) := by
  have hrun : saveKeyToLitWithRetry encrypt accessControlConditions authSig attempts
      = litRetryLoop encrypt attempts 0 none := by
    unfold saveKeyToLitWithRetry
    rw [if_neg (by tauto), hvalid]
  constructor
  · rw [hrun]
    exact litRetryLoop_count encrypt attempts 0 none
  · intro hfail
    rw [hrun]
    have := litRetryLoop_allFail encrypt err attempts 0 none hatt (fun j hj => by
      simpa using hfail j hj)
    simpa using this

/-- Closed witness for C5: two attempts that both fail produce exactly two
wrap attempts with 1 s and 2 s waits and rethrow the second error. -/
theorem C5_saveKeyToLit_retry_witness :
    (saveKeyToLitWithRetry (fun i => Except.error (toString i))
        [⟨"", "", "ethereum", "", [":userAddress"], some ⟨"=", "0xcc"⟩⟩]
        ⟨"0xsig", "web3", "msg", "0xcc"⟩ 2).1.countP isWrapAttempt ≤ 2
    ∧ saveKeyToLitWithRetry (fun i => Except.error (toString i))
        [⟨"", "", "ethereum", "", [":userAddress"], some ⟨"=", "0xcc"⟩⟩]
        ⟨"0xsig", "web3", "msg", "0xcc"⟩ 2
      = (((List.range' 0 2).map
            (fun j => [RetryEvent.wrapAttempt j, RetryEvent.wait (1000 * (j + 1))])).flatten,
         .error (some (toString (2 - 1)))) := by
  have h := C5_saveKeyToLit_retry (fun i => Except.error (toString i))
    [⟨"", "", "ethereum", "", [":userAddress"], some ⟨"=", "0xcc"⟩⟩]
    ⟨"0xsig", "web3", "msg", "0xcc"⟩ 2 (fun j => toString j)
    (by decide) (by decide) (by decide) (by decide) (by decide)
  exact ⟨h.1, h.2 (fun j hj => rfl)⟩

/-! ## `generateSiweMessage` (part_001, lines 32-66)

The impure ingredients (checksummed address from ethers, current origin,
detected chain id, random nonce, `new Date().toISOString()`) are
parameters; the function builds the `siweParts` array and joins it with
`'\n'`. -/

/-- The `siweParts` array. `version` is the constant `'1'`. -/
def generateSiweParts (domain checksumAddress uri : String) (chainId : Nat)
    (nonce issuedAt : String) : List String :=
  [domain ++ " wants you to sign in with your Ethereum account:",
   checksumAddress,
   "",
   "Sign in with Ethereum to access Lit Protocol services.",
   "",
   "URI: " ++ uri,
   "Version: 1",
   "Chain ID: " ++ toString chainId,
   "Nonce: " ++ nonce,
   "Issued At: " ++ issuedAt]

/-- JS `Array.prototype.join('\n')`. -/
def joinNewline : List String → String
  | [] => ""
  | [p] => p
  | p :: rest => p ++ "\n" ++ joinNewline rest

/-- `generateSiweMessage`: `siweParts.join('\n')`. -/
def generateSiweMessage (domain checksumAddress uri : String) (chainId : Nat)
    (nonce issuedAt : String) : String :=
  joinNewline (generateSiweParts domain checksumAddress uri chainId nonce issuedAt)

/-- Split a character list at `'\n'` (the lines of a message). -/
def splitLines : List Char → List (List Char)
  | [] => [[]]
  | c :: cs =>
    let r := splitLines cs
    if c = '\n' then [] :: r
    else (c :: r.headI) :: r.tail

theorem splitLines_no_newline (xs : List Char) (h : ∀ c ∈ xs, ¬ c = '\n') :
    splitLines xs = [xs] := by
  induction xs with
  | nil => rfl
  | cons x xs ih =>
    have hx : ¬ x = '\n' := h x (List.mem_cons_self _ _)
    have hrest := ih (fun c hc => h c (List.mem_cons_of_mem _ hc))
    show (if x = '\n' then [] :: splitLines xs
        else (x :: (splitLines xs).headI) :: (splitLines xs).tail) = [x :: xs]
    rw [if_neg hx, hrest]
    rfl

theorem splitLines_append (xs ys : List Char) (h : ∀ c ∈ xs, ¬ c = '\n') :
    splitLines (xs ++ '\n' :: ys) = xs :: splitLines ys := by
  induction xs with
  | nil =>
    show (if '\n' = '\n' then [] :: splitLines ys
        else ('\n' :: (splitLines ys).headI) :: (splitLines ys).tail) = [] :: splitLines ys
    rw [if_pos rfl]
  | cons x xs ih =>
    have hx : ¬ x = '\n' := h x (List.mem_cons_self _ _)
    have hrest := ih (fun c hc => h c (List.mem_cons_of_mem _ hc))
    show (if x = '\n' then [] :: splitLines (xs ++ '\n' :: ys)
        else (x :: (splitLines (xs ++ '\n' :: ys)).headI)
          :: (splitLines (xs ++ '\n' :: ys)).tail) = (x :: xs) :: splitLines ys
    rw [if_neg hx, hrest]
    rfl

theorem joinNewline_cons (p : String) (rest : List String) (h : rest ≠ []) :
    joinNewline (p :: rest) = p ++ "\n" ++ joinNewline rest := by
  cases rest with
  | nil => exact absurd rfl h
  | cons q qs => rfl

theorem splitLines_joinNewline (parts : List String) (hne : parts ≠ [])
    (h : ∀ p ∈ parts, ∀ c ∈ p.data, ¬ c = '\n') :
    splitLines (joinNewline parts).data = parts.map String.data := by
  induction parts with
  | nil => exact absurd rfl hne
  | cons p rest ih =>
    cases rest with
    | nil =>
      show splitLines p.data = [p.data]
      exact splitLines_no_newline p.data (h p (List.mem_cons_self _ _))
    | cons q qs =>
      rw [joinNewline_cons p _ (by simp)]
      have hdata : (p ++ "\n" ++ joinNewline (q :: qs)).data
          = p.data ++ '\n' :: (joinNewline (q :: qs)).data := by
        simp [String.data_append]
      rw [hdata,
        splitLines_append _ _ (h p (List.mem_cons_self _ _)),
        ih (by simp) (fun x hx c hc => h x (List.mem_cons_of_mem _ hx) c hc)]
      rfl

theorem noNewline_append {a b : String}
    (ha : ∀ c ∈ a.data, ¬ c = '\n') (hb : ∀ c ∈ b.data, ¬ c = '\n') :
    ∀ c ∈ (a ++ b).data, ¬ c = '\n' := by
  intro c hc
  rw [String.data_append] at hc
  rcases List.mem_append.mp hc with h | h
  · exact ha c h
  · exact hb c h

/-- **C3 (counterexample).** At a concrete input the generated message
does NOT have the claimed line order (greeting, blank, address, blank,
statement, blank, …): the address is on the line directly after the
greeting, with no blank line in between. -/
theorem C3_counterexample_siwe_order :
    splitLines (generateSiweMessage "localhost:5173" "0xAbCd"
        "http://localhost:5173" 1 "n0nc3" "2025-01-01T00:00:00.000Z").data
      ≠ ["localhost:5173 wants you to sign in with your Ethereum account:",
         "", "0xAbCd", "",
         "Sign in with Ethereum to access Lit Protocol services.", "",
         "URI: http://localhost:5173", "Version: 1", "Chain ID: 1",
         "Nonce: n0nc3",
         "Issued At: 2025-01-01T00:00:00.000Z"].map String.data := by
  decide

/-- **C3 (amended).** For every address, domain, uri, chain id, nonce and
issued-at timestamp (none containing a newline), the generated sign-in
statement's lines appear in exactly this order: greeting line, address,
blank line, statement line, blank line, URI, version, chain id, nonce,
issued-at — i.e. the EIP-4361 layout with no blank line between greeting
and address. -/
theorem C3_siwe_line_order (domain checksumAddress uri nonce issuedAt : String)
    (chainId : Nat)
    (hd : ∀ c ∈ domain.data, ¬ c = '\n')
    (ha : ∀ c ∈ checksumAddress.data, ¬ c = '\n')
    (hu : ∀ c ∈ uri.data, ¬ c = '\n')
    (hn : ∀ c ∈ nonce.data, ¬ c = '\n')
    (hi : ∀ c ∈ issuedAt.data, ¬ c = '\n')
    (hc : ∀ c ∈ (toString chainId).data, ¬ c = '\n') :
    splitLines (generateSiweMessage domain checksumAddress uri chainId
        nonce issuedAt).data
      = [(domain ++ " wants you to sign in with your Ethereum account:").data,
         checksumAddress.data,
         [],
         "Sign in with Ethereum to access Lit Protocol services.".data,
         [],
         ("URI: " ++ uri).data,
         "Version: 1".data,
         ("Chain ID: " ++ toString chainId).data,
         ("Nonce: " ++ nonce).data,
         ("Issued At: " ++ issuedAt).data] := by
  unfold generateSiweMessage
  rw [splitLines_joinNewline _ (by simp [generateSiweParts]) ?hok]
  case hok =>
    intro p hp
    simp only [generateSiweParts, List.mem_cons, List.not_mem_nil, or_false] at hp
    rcases hp with h | h | h | h | h | h | h | h | h | h <;> subst h
    · exact noNewline_append hd (by decide)
    · exact ha
    · decide
    · decide
    · decide
    · exact noNewline_append (by decide) hu
    · decide
    · exact noNewline_append (by decide) hc
    · exact noNewline_append (by decide) hn
    · exact noNewline_append (by decide) hi
  rfl

/-- Closed witness for the amended C3 at concrete inputs. -/
theorem C3_siwe_line_order_witness :
    splitLines (generateSiweMessage "localhost:5173" "0xAbCd"
        "http://localhost:5173" 1 "n0nc3" "2025-01-01T00:00:00.000Z").data
      = [("localhost:5173" ++ " wants you to sign in with your Ethereum account:").data,
         "0xAbCd".data,
         [],
         "Sign in with Ethereum to access Lit Protocol services.".data,
         [],
         ("URI: " ++ "http://localhost:5173").data,
         "Version: 1".data,
         ("Chain ID: " ++ toString 1).data,
         ("Nonce: " ++ "n0nc3").data,
         ("Issued At: " ++ "2025-01-01T00:00:00.000Z").data] :=
  C3_siwe_line_order "localhost:5173" "0xAbCd" "http://localhost:5173"
    "n0nc3" "2025-01-01T00:00:00.000Z" 1
    (by decide) (by decide) (by decide) (by decide) (by decide) (by decide)

/-! ## `getKeyFromLit` (part_001, lines 173-239)

The Lit `decrypt` call is the oracle `litDecrypt cipher dataToEncryptHash
sessionExpiration`, whose `.error` carries the node error message. JSON
parsing of the stored payload is modelled by the `Option WrappedKeyPayload`
argument (`none` = unparsable payload). -/

/-- The parsed persisted payload
`{cipher, dataToEncryptHash, sessionKeyExpiration?}`. -/
structure WrappedKeyPayload where
  cipher : String
  dataToEncryptHash : String
  sessionKeyExpiration : Option Nat
deriving DecidableEq, Repr

/-- A thrown error: message plus the optional `code` property attached to
the distinguished missing-expiration error. -/
structure LitError where
  message : String
  code : Option String
deriving DecidableEq, Repr

/-- The friendly message of the distinguished missing-expiration error. -/
def missingExpiryMessage : String :=
  "Missing session expiration on the encrypted key. The uploader must re-persist the symmetric key to Lit (so it includes a session expiration)."

/-- `possibleExp || defaultExpiration`: the stored expiration when truthy,
else 24 h from now (seconds). -/
def sessionExpirationOf (nowSeconds : Nat) (p : WrappedKeyPayload) : Nat :=
  match p.sessionKeyExpiration with
  | some e => if e = 0 then nowSeconds + 24 * 60 * 60 else e
  | none => nowSeconds + 24 * 60 * 60

/-- The error-classification test:
`msg.includes('expiration') && msg.includes('not set')` on the lowercased
message. -/
def isExpiryNotSetError (e : String) : Bool :=
  strIncludes (jsToLowerCase e) "expiration" && strIncludes (jsToLowerCase e) "not set"

/-- `getKeyFromLit` (the decrypt path and its error handler). -/
def getKeyFromLit (litDecrypt : String → String → Nat → Except String String)
    (nowSeconds : Nat) (payload : Option WrappedKeyPayload) :
    Except LitError String :=
  match payload with
  | none => .error ⟨"Invalid encrypted symmetric key payload", none⟩
  | some p =>
    match litDecrypt p.cipher p.dataToEncryptHash (sessionExpirationOf nowSeconds p) with
    | .ok dec => .ok dec
    | .error e =>
      if isExpiryNotSetError e then
        .error ⟨missingExpiryMessage, some "MISSING_SESSION_EXPIRATION"⟩
      else .error ⟨e, none⟩

/-- **C6.** When the custody network's unwrap fails with the
"expiration … not set" error class, `getKeyFromLit` raises the
distinguished error with code `MISSING_SESSION_EXPIRATION` whose message
tells the owner to re-persist (re-wrap); every other unwrap failure
propagates as the original error message with no code. -/
theorem C6_getKeyFromLit_expiry_classification
    (litDecrypt : String → String → Nat → Except String String)
    (nowSeconds : Nat) (p : WrappedKeyPayload) (e : String)
    (hdec : litDecrypt p.cipher p.dataToEncryptHash
        (sessionExpirationOf nowSeconds p) = .error e) :
    (isExpiryNotSetError e = true →
      getKeyFromLit litDecrypt nowSeconds (some p)
        = .error ⟨missingExpiryMessage, some "MISSING_SESSION_EXPIRATION"⟩)
    ∧ (isExpiryNotSetError e = false →
      getKeyFromLit litDecrypt nowSeconds (some p) = .error ⟨e, none⟩)
    ∧ strIncludes missingExpiryMessage "re-persist" = true := by
  refine ⟨?_, ?_, by decide⟩
  · intro h
    simp [getKeyFromLit, hdec, h]
  · intro h
    simp [getKeyFromLit, hdec, h]

/-- Closed witness for C6: an "expiration not set" node error maps to the
distinguished code; a different error propagates unchanged. -/
theorem C6_getKeyFromLit_expiry_classification_witness :
    (isExpiryNotSetError "Expiration Not Set properly" = true
      ∧ getKeyFromLit (fun _ _ _ => .error "Expiration Not Set properly") 0
          (some ⟨"c", "h", none⟩)
        = .error ⟨missingExpiryMessage, some "MISSING_SESSION_EXPIRATION"⟩)
    ∧ (isExpiryNotSetError "node busy" = false
      ∧ getKeyFromLit (fun _ _ _ => .error "node busy") 0 (some ⟨"c", "h", none⟩)
        = .error ⟨"node busy", none⟩) := by
  have h1 := C6_getKeyFromLit_expiry_classification
    (fun _ _ _ => .error "Expiration Not Set properly") 0 ⟨"c", "h", none⟩
    "Expiration Not Set properly" rfl
  have h2 := C6_getKeyFromLit_expiry_classification
    (fun _ _ _ => .error "node busy") 0 ⟨"c", "h", none⟩ "node busy" rfl
  exact ⟨⟨by decide, h1.1 (by decide)⟩, ⟨by decide, h2.2.1 (by decide)⟩⟩

/-! ## Access-policy construction at publish and retry-persist
(src/unnamed/part_005, `LighthouseUploader.handleUploadWithMeta` lines
1344-1377 and `handleRetryPersist` lines 1620-1653)

`rentContractAddress` is `import.meta.env.VITE_RENT_AGENT_ADDRESS || ''`;
the empty string means "not configured" (JS truthiness). -/

/-- part_005's `normalizeAddress`: `String(addr).toLowerCase()`. -/
def uploaderNormalizeAddress (addr : String) : String := jsToLowerCase addr

/-- The `accessControlConditions` array built by `handleUploadWithMeta`. -/
def uploadAccessControlConditions (publicKey rentContractAddress cidResult : String) :
    List AccClause :=
  if ¬ rentContractAddress = "" then
    [⟨"", "", "ethereum", "", [":userAddress"],
      some ⟨"=", uploaderNormalizeAddress publicKey⟩⟩,
     ⟨rentContractAddress, "", "ethereum", "isRenter", [cidResult, ":userAddress"],
      some ⟨"=", "true"⟩⟩]
  else
    [⟨"", "", "ethereum", "", [":userAddress"],
      some ⟨"=", uploaderNormalizeAddress publicKey⟩⟩]

/-- The `accessControlConditions` array built by `handleRetryPersist`
(textually identical structure at its own call site). -/
def retryPersistAccessControlConditions (publicKey rentContractAddress cidToRetry : String) :
    List AccClause :=
  if ¬ rentContractAddress = "" then
    [⟨"", "", "ethereum", "", [":userAddress"],
      some ⟨"=", uploaderNormalizeAddress publicKey⟩⟩,
     ⟨rentContractAddress, "", "ethereum", "isRenter", [cidToRetry, ":userAddress"],
      some ⟨"=", "true"⟩⟩]
  else
    [⟨"", "", "ethereum", "", [":userAddress"],
      some ⟨"=", uploaderNormalizeAddress publicKey⟩⟩]

/-- **C8.** With a rental contract configured, both the publish policy and
the retry-persist policy are the ordered two-clause list
[plain equality on the lowercased owner; on-chain
`isRenter(contentId, :userAddress) = 'true'` against that contract];
with no contract configured, both are exactly the single owner-equality
clause. -/
theorem C8_rental_policy_shape (publicKey rentContractAddress cid : String) :
    (¬ rentContractAddress = "" →
      uploadAccessControlConditions publicKey rentContractAddress cid
          = [⟨"", "", "ethereum", "", [":userAddress"],
              some ⟨"=", jsToLowerCase publicKey⟩⟩,
             ⟨rentContractAddress, "", "ethereum", "isRenter",
              [cid, ":userAddress"], some ⟨"=", "true"⟩⟩]
        ∧ retryPersistAccessControlConditions publicKey rentContractAddress cid
          = uploadAccessControlConditions publicKey rentContractAddress cid
        ∧ isPlainEqClause
            ((uploadAccessControlConditions publicKey rentContractAddress cid).headI)
            = true)
    ∧ (rentContractAddress = "" →
      uploadAccessControlConditions publicKey rentContractAddress cid
          = [⟨"", "", "ethereum", "", [":userAddress"],
              some ⟨"=", jsToLowerCase publicKey⟩⟩]
        ∧ retryPersistAccessControlConditions publicKey rentContractAddress cid
          = uploadAccessControlConditions publicKey rentContractAddress cid) := by
  constructor
  · intro h
    refine ⟨?_, ?_, ?_⟩
    · simp [uploadAccessControlConditions, uploaderNormalizeAddress, h]
    · simp [uploadAccessControlConditions, retryPersistAccessControlConditions, h]
    · simp [uploadAccessControlConditions, uploaderNormalizeAddress, h,
        isPlainEqClause]
  · intro h
    subst h
    constructor
    · simp [uploadAccessControlConditions, uploaderNormalizeAddress]
    · simp [uploadAccessControlConditions, retryPersistAccessControlConditions]

/-- Closed witness for C8 in both modes (contract configured / absent). -/
theorem C8_rental_policy_shape_witness :
    uploadAccessControlConditions "0xAB" "0xC0FFEE" "cid1"
        = [⟨"", "", "ethereum", "", [":userAddress"], some ⟨"=", jsToLowerCase "0xAB"⟩⟩,
           ⟨"0xC0FFEE", "", "ethereum", "isRenter", ["cid1", ":userAddress"],
            some ⟨"=", "true"⟩⟩]
    ∧ uploadAccessControlConditions "0xAB" "" "cid1"
        = [⟨"", "", "ethereum", "", [":userAddress"], some ⟨"=", jsToLowerCase "0xAB"⟩⟩] :=
  ⟨((C8_rental_policy_shape "0xAB" "0xC0FFEE" "cid1").1 (by decide)).1,
   ((C8_rental_policy_shape "0xAB" "" "cid1").2 rfl).1⟩


/-! ## `RentModal.handlePayAndFetch` (src/src/RentModal.tsx, lines 87-214)

The rental orchestration: look up the stored record, block legacy records,
decide the payment step (owner / active renter skip it), collect the Lit
key entries, try them once, then poll for up to 30 s, finally decrypt.
Oracles: `checksum` models the optional `window.ethers` checksummer (`none`
= absent or it threw); `tryEntryInitial i` is the `getKeyFromLit` outcome
for entry `i` on the first pass; `tryRound r` is the outcome of the poll
round `r` over all entries (`some k` = a key was recovered that round);
`delay r` is the extra wall-clock time (ms) the round's Lit calls took,
on top of the 3000 ms sleep. The recovered key is the result; decryption
of the fetched blob then proceeds via `decryptIpfsFile` above. -/

/-- One `{key, accessControlConditions}` entry of a stored record. -/
structure LitKeyEntry where
  key : String
  accessControlConditions : Option (List AccClause)
deriving DecidableEq, Repr

/-- A record of the `lighthouse_uploads` store, restricted to the fields
`handlePayAndFetch` reads. `litPersisted = none` models a record without
the flag (the strict `=== false` check only fires on an explicit
`false`). -/
structure StoredRecord where
  cid : String
  owner : Option String
  litPersisted : Option Bool
  encryptedSymmetricKeys : Option (List LitKeyEntry)
  encryptedSymmetricKey : Option String
  accessControlConditions : Option (List AccClause)
deriving DecidableEq, Repr

/-- JS-trimmed whitespace (`String.prototype.trim`): ASCII whitespace,
NBSP, LS, PS, BOM. -/
def isJsTrimWs (c : Char) : Bool :=
  c.toNat = 9 || c.toNat = 10 || c.toNat = 11 || c.toNat = 12 || c.toNat = 13
    || c.toNat = 32 || c.toNat = 160 || c.toNat = 8232 || c.toNat = 8233
    || c.toNat = 65279

/-- JS `s.trim()`. -/
def jsTrim (s : String) : String :=
  String.mk (((s.data.dropWhile isJsTrimWs).reverse.dropWhile isJsTrimWs).reverse)

/-- `/^0x[a-fA-F0-9]{40}$/.test s`. -/
def isHexAddressRegex (s : String) : Bool :=
  match s.data with
  | '0' :: 'x' :: rest => rest.length = 40 && rest.all isHexDigitChar
  | _ => false

/-- RentModal's `normalizeAddress` (lines 29-40): empty input yields `''`;
otherwise trim, try the optional `window.ethers` checksummer, else accept
the string if it looks like a 0x-address, else `''`. -/
def rmNormalizeAddress (checksum : String → Option String) (addr : String) : String :=
  if addr = "" then ""
  else
    match checksum (jsTrim addr) with
    | some c => c
    | none => if isHexAddressRegex (jsTrim addr) then jsTrim addr else ""

/-- `record.accessControlConditions?.[0]?.returnValueTest?.value || ''`. -/
def accFirstValue (record : StoredRecord) : String :=
  match record.accessControlConditions with
  | some (c :: _) =>
    (match c.returnValueTest with
     | some t => t.value
     | none => "")
  | _ => ""

/-- The `entries` array (lines 139-141): the `encryptedSymmetricKeys`
array when present, else a singleton from the legacy
`encryptedSymmetricKey` field (when truthy), else empty. -/
def entriesOf (record : StoredRecord) : List LitKeyEntry :=
  match record.encryptedSymmetricKeys with
  | some ks => ks
  | none =>
    match record.encryptedSymmetricKey with
    | some k =>
      if k = "" then [] else [⟨k, record.accessControlConditions⟩]
    | none => []

/-- Observable actions of the rental flow. -/
inductive RentAction
  | rentCall
  | initialKeyTry (entryIdx : Nat)
  | sleep (ms : Nat)
  | pollKeyTry (round : Nat)
deriving DecidableEq, Repr

/-- The first `for (const e of entries)` pass (lines 161-170): try each
entry in order until one yields a key. `n` is the number of entries left,
`idx` the current index. -/
def initialPass (tryEntryInitial : Nat → Option String) :
    Nat → Nat → List RentAction × Option String
  | 0, _ => ([], none)
  | n + 1, idx =>
    match tryEntryInitial idx with
    | some k => ([.initialKeyTry idx], some k)
    | none =>
      let rest := initialPass tryEntryInitial n (idx + 1)
      (.initialKeyTry idx :: rest.1, rest.2)

/-- The bounded poll loop (lines 172-194):
`while (!gotKey && (Date.now() - start) < 30_000) { await sleep(3000);
try all entries }`. `elapsed` is `Date.now() - start` at the loop head;
each iteration consumes the 3000 ms sleep plus `delay round` ms inside the
Lit calls. Structural termination: the elapsed time grows by at least
3000 ms per iteration toward the 30 s ceiling. -/
def pollForKey (tryRound : Nat → Option String) (delay : Nat → Nat)
    (round elapsed : Nat) : List RentAction × Option String :=
  if _h : elapsed < 30000 then
    match tryRound round with
    | some k => ([.sleep 3000, .pollKeyTry round], some k)
    | none =>
      let next := pollForKey tryRound delay (round + 1) (elapsed + 3000 + delay round)
      (.sleep 3000 :: .pollKeyTry round :: next.1, next.2)
  else ([], none)
termination_by 30000 - elapsed
decreasing_by omega

/-- The legacy-record error message (line 100). -/
def legacyAgentMessage : String :=
  "This is a legacy agent that was uploaded before the latest fixes. The owner needs to re-upload it for compatibility. Please ask the agent owner to re-upload the agent."

/-- The no-entries error message (line 145). -/
def noEntriesMessage : String :=
  "No encrypted keys available (no Lit entries). The uploader likely failed to persist the key to Lit — ask them to retry publishing."

/-- The poll-exhausted error message (line 192). -/
def keyStillUnavailableMessage : String :=
  "Unable to retrieve decryption key from Lit Protocol. This may be due to:\n\n1. Session expiration issues - try asking the owner to re-upload the agent\n2. Network connectivity issues - try again in a few minutes\n3. Access control conditions not met - ensure you have the required permissions\n\nContact the agent owner for assistance or try the \"Recover Key\" option if available."

/-- The payment decision (lines 109-131): skip when the requester is the
owner or already an active renter; otherwise validate price and contract
configuration and submit the `rentAgent` transaction. Returns the actions
taken and the thrown error, if any. -/
def paymentStep (owner requester : String) (isRenter : Bool)
    (price : Option String) (rentAgentContract : String) :
    List RentAction × Option String :=
  if ¬ owner = "" ∧ owner = requester then ([], none)
  else if isRenter then ([], none)
  else if price.getD "" = "" then ([], some "This agent requires a rental fee")
  else if rentAgentContract = "" then ([], some "Smart contract not configured")
  else ([.rentCall], none)

/-- `handlePayAndFetch`, producing the action trace and either the
recovered symmetric key or the thrown error message. `authSigOk` models
`createLitAuthSig` (which throws on signature mismatch). The unreachable
second `if (!gotKey) throw …` after the poll (line 196) is dead code and
not represented. -/
def handlePayAndFetch (checksum : String → Option String)
    (stored : List StoredRecord) (cid : String)
    (authAddress : Option String) (price : Option String)
    (rentAgentContract : String) (isRenter : Bool)
    (authSigOk : Except String Unit)
    (tryEntryInitial : Nat → Option String)
    (tryRound : Nat → Option String) (delay : Nat → Nat) :
    List RentAction × Except String String :=
  match stored.find? (fun r => r.cid = cid) with
  | none => ([], .error "Record not found")
  | some record =>
    if record.litPersisted = some false then
      ([], .error legacyAgentMessage)
    else
      let ownerRaw := jsOr (record.owner.getD "") (accFirstValue record)
      let owner := jsOr (rmNormalizeAddress checksum ownerRaw) (jsToLowerCase ownerRaw)
      let requester := jsOr (rmNormalizeAddress checksum (authAddress.getD ""))
          (jsToLowerCase (authAddress.getD ""))
      let payment := paymentStep owner requester isRenter price rentAgentContract
      match payment.2 with
      | some e => (payment.1, .error e)
      | none =>
        let entries := entriesOf record
        if entries.isEmpty then (payment.1, .error noEntriesMessage)
        else
          match authSigOk with
          | .error e => (payment.1, .error e)
          | .ok _ =>
            let ini := initialPass tryEntryInitial entries.length 0
            match ini.2 with
            | some k => (payment.1 ++ ini.1, .ok k)
            | none =>
              let poll := pollForKey tryRound delay 0 0
              match poll.2 with
              | some k => (payment.1 ++ ini.1 ++ poll.1, .ok k)
              | none => (payment.1 ++ ini.1 ++ poll.1, .error keyStillUnavailableMessage)

/-- **C1.** A stored record whose `litPersisted` flag is `false` makes
`handlePayAndFetch` fail with the distinguishable legacy-record error
(recognized by the UI via its "legacy agent" substring) before the payment
step: the action trace is empty, so the ledger `rentAgent` call is never
invoked. -/
theorem C1_legacy_record_blocked (checksum : String → Option String)
    (stored : List StoredRecord) (cid : String)
    (authAddress : Option String) (price : Option String)
    (rentAgentContract : String) (isRenter : Bool)
    (authSigOk : Except String Unit)
    (tryEntryInitial : Nat → Option String)
    (tryRound : Nat → Option String) (delay : Nat → Nat)
    (record : StoredRecord)
    (hfind : stored.find? (fun r => r.cid = cid) = some record)
    (hlegacy : record.litPersisted = some false) :
    handlePayAndFetch checksum stored cid authAddress price rentAgentContract
        isRenter authSigOk tryEntryInitial tryRound delay
      = ([], .error legacyAgentMessage)
    ∧ RentAction.rentCall ∉ (handlePayAndFetch checksum stored cid authAddress
        price rentAgentContract isRenter authSigOk tryEntryInitial tryRound delay).1
    ∧ strIncludes legacyAgentMessage "legacy agent" = true := by
  have hmain : handlePayAndFetch checksum stored cid authAddress price
      rentAgentContract isRenter authSigOk tryEntryInitial tryRound delay
      = ([], .error legacyAgentMessage) := by
    unfold handlePayAndFetch
    rw [hfind]
    simp [hlegacy]
  refine ⟨hmain, ?_, by decide⟩
  rw [hmain]
  simp

/-- Closed witness for C1: a concrete legacy record is blocked with an
empty action trace. -/
theorem C1_legacy_record_blocked_witness :
    [(⟨"cidX", some "0xaa", some false, none, none, none⟩ : StoredRecord)].find?
        (fun r => r.cid = "cidX")
      = some ⟨"cidX", some "0xaa", some false, none, none, none⟩
    ∧ (handlePayAndFetch (fun _ => none)
        [⟨"cidX", some "0xaa", some false, none, none, none⟩] "cidX"
        (some "0xbb") (some "0.05") "0xC0FFEE" false (.ok ())
        (fun _ => none) (fun _ => none) (fun _ => 0)
      = ([], .error legacyAgentMessage)
    ∧ RentAction.rentCall ∉ (handlePayAndFetch (fun _ => none)
        [⟨"cidX", some "0xaa", some false, none, none, none⟩] "cidX"
        (some "0xbb") (some "0.05") "0xC0FFEE" false (.ok ())
        (fun _ => none) (fun _ => none) (fun _ => 0)).1
    ∧ strIncludes legacyAgentMessage "legacy agent" = true) :=
  ⟨by decide,
   C1_legacy_record_blocked (fun _ => none)
     [⟨"cidX", some "0xaa", some false, none, none, none⟩] "cidX"
     (some "0xbb") (some "0.05") "0xC0FFEE" false (.ok ())
     (fun _ => none) (fun _ => none) (fun _ => 0)
     ⟨"cidX", some "0xaa", some false, none, none, none⟩ (by decide) rfl⟩

/-- Whether a rent action is a poll-round key try. -/
def isPollKeyTry : RentAction → Bool
  | .pollKeyTry _ => true
  | _ => false

theorem pollForKey_ceiling (tryRound : Nat → Option String) (delay : Nat → Nat)
    (round elapsed : Nat) (h : 30000 ≤ elapsed) :
    pollForKey tryRound delay round elapsed = ([], none) := by
  rw [pollForKey]
  rw [dif_neg (by omega)]

theorem pollForKey_none (tryRound : Nat → Option String) (delay : Nat → Nat)
    (hall : ∀ r, tryRound r = none) :
    ∀ fuel round elapsed, 30000 - elapsed ≤ fuel →
      (pollForKey tryRound delay round elapsed).2 = none := by
  intro fuel
  induction fuel with
  | zero =>
    intro round elapsed hf
    rw [pollForKey_ceiling _ _ _ _ (by omega)]
  | succ f ih =>
    intro round elapsed hf
    by_cases h : elapsed < 30000
    · rw [pollForKey, dif_pos h, hall round]
      exact ih (round + 1) (elapsed + 3000 + delay round) (by omega)
    · rw [pollForKey_ceiling _ _ _ _ (by omega)]

theorem pollForKey_shape (tryRound : Nat → Option String) (delay : Nat → Nat) :
    ∀ fuel round elapsed, 30000 - elapsed ≤ fuel →
      ∃ n, (pollForKey tryRound delay round elapsed).1
        = ((List.range' round n).map
            (fun i => [RentAction.sleep 3000, RentAction.pollKeyTry i])).flatten := by
  intro fuel
  induction fuel with
  | zero =>
    intro round elapsed hf
    rw [pollForKey_ceiling _ _ _ _ (by omega)]
    exact ⟨0, rfl⟩
  | succ f ih =>
    intro round elapsed hf
    by_cases h : elapsed < 30000
    · rw [pollForKey, dif_pos h]
      cases htry : tryRound round with
      | some k => exact ⟨1, rfl⟩
      | none =>
        obtain ⟨n, hn⟩ := ih (round + 1) (elapsed + 3000 + delay round) (by omega)
        refine ⟨n + 1, ?_⟩
        simp only [List.range'_succ, List.map_cons, List.flatten_cons]
        rw [← hn]
        rfl
    · rw [pollForKey_ceiling _ _ _ _ (by omega)]
      exact ⟨0, rfl⟩

theorem pollForKey_count (tryRound : Nat → Option String) (delay : Nat → Nat) :
    ∀ fuel round elapsed, 30000 - elapsed ≤ fuel →
      3000 * (pollForKey tryRound delay round elapsed).1.countP isPollKeyTry
        ≤ 32999 - min elapsed 32999 := by
  intro fuel
  induction fuel with
  | zero =>
    intro round elapsed hf
    rw [pollForKey_ceiling _ _ _ _ (by omega)]
    simp
  | succ f ih =>
    intro round elapsed hf
    by_cases h : elapsed < 30000
    · rw [pollForKey, dif_pos h]
      cases htry : tryRound round with
      | some k =>
        simp [isPollKeyTry, List.countP_cons]
        omega
      | none =>
        have hr := ih (round + 1) (elapsed + 3000 + delay round) (by omega)
        simp only [List.countP_cons, isPollKeyTry]
        simp
        omega
    · rw [pollForKey_ceiling _ _ _ _ (by omega)]
      simp

theorem paymentStep_skip_when_renter (owner requester : String)
    (price : Option String) (rentAgentContract : String) :
    paymentStep owner requester true price rentAgentContract = ([], none) := by
  unfold paymentStep
  by_cases hc : ¬ owner = "" ∧ owner = requester
  · rw [if_pos hc]
  · rw [if_neg hc]
    simp

theorem initialPass_none (tryEntryInitial : Nat → Option String)
    (hall : ∀ i, tryEntryInitial i = none) :
    ∀ n idx, initialPass tryEntryInitial n idx
      = ((List.range' idx n).map RentAction.initialKeyTry, none) := by
  intro n
  induction n with
  | zero =>
    intro idx
    rfl
  | succ m ih =>
    intro idx
    show (match tryEntryInitial idx with
      | some k => ([.initialKeyTry idx], some k)
      | none =>
        let rest := initialPass tryEntryInitial m (idx + 1)
        (.initialKeyTry idx :: rest.1, rest.2))
      = ((List.range' idx (m + 1)).map RentAction.initialKeyTry, none)
    rw [hall idx, ih (idx + 1)]
    simp [List.range'_succ]

/-- **C9.** The post-payment key-recovery poll is hard-bounded: no round
runs once the elapsed time reaches the 30 s ceiling; every poll round is
preceded by its 3-second sleep (rounds in order, one `[sleep 3000, try]`
block each); at most 10 rounds run from a fresh start; and when the
ceiling is exhausted without a key, the flow fails with the distinct
"Unable to retrieve decryption key" error instead of polling forever
(termination itself is structural: `pollForKey` is total). -/
theorem C9_poll_bounded_ceiling (checksum : String → Option String)
    (stored : List StoredRecord) (cid : String)
    (authAddress : Option String) (price : Option String)
    (rentAgentContract : String)
    (tryEntryInitial : Nat → Option String)
    (tryRound : Nat → Option String) (delay : Nat → Nat)
    (record : StoredRecord)
    (hfind : stored.find? (fun r => r.cid = cid) = some record)
    (hnotlegacy : ¬ record.litPersisted = some false)
    (hentries : (entriesOf record).isEmpty = false)
    (hinall : ∀ i, tryEntryInitial i = none)
    (hpollall : ∀ r, tryRound r = none) :
    (∀ round elapsed, 30000 ≤ elapsed →
        pollForKey tryRound delay round elapsed = ([], none))
    ∧ (∃ n, (pollForKey tryRound delay 0 0).1
        = ((List.range' 0 n).map
            (fun i => [RentAction.sleep 3000, RentAction.pollKeyTry i])).flatten)
    ∧ (pollForKey tryRound delay 0 0).1.countP isPollKeyTry ≤ 10
    ∧ handlePayAndFetch checksum stored cid authAddress price rentAgentContract
        true (.ok ()) tryEntryInitial tryRound delay
      = (((List.range' 0 (entriesOf record).length).map RentAction.initialKeyTry)
          ++ (pollForKey tryRound delay 0 0).1,
         .error keyStillUnavailableMessage)
    ∧ strIncludes keyStillUnavailableMessage "Unable to retrieve decryption key" = true := by
  refine ⟨?_, ?_, ?_, ?_, by decide⟩
  · intro round elapsed h
    exact pollForKey_ceiling tryRound delay round elapsed h
  · exact pollForKey_shape tryRound delay 30000 0 0 (by omega)
  · have := pollForKey_count tryRound delay 30000 0 0 (by omega)
    omega
  · have hpoll : (pollForKey tryRound delay 0 0).2 = none :=
      pollForKey_none tryRound delay hpollall 30000 0 0 (by omega)
    unfold handlePayAndFetch
    rw [hfind]
    simp [hnotlegacy, paymentStep_skip_when_renter, hentries,
      initialPass_none tryEntryInitial hinall, hpoll]

/-- Closed witness for C9 at a concrete record whose key never becomes
available. -/
theorem C9_poll_bounded_ceiling_witness :
    (∀ round elapsed, 30000 ≤ elapsed →
        pollForKey (fun _ => none) (fun _ => 0) round elapsed = ([], none))
    ∧ (∃ n, (pollForKey (fun _ => none) (fun _ => 0) 0 0).1
        = ((List.range' 0 n).map
            (fun i => [RentAction.sleep 3000, RentAction.pollKeyTry i])).flatten)
    ∧ (pollForKey (fun _ => none) (fun _ => 0) 0 0).1.countP isPollKeyTry ≤ 10
    ∧ handlePayAndFetch (fun _ => none)
        [⟨"cidY", some "0xaa", none, some [⟨"k1", none⟩], none, none⟩] "cidY"
        (some "0xbb") (some "0.05") "0xC0FFEE" true (.ok ())
        (fun _ => none) (fun _ => none) (fun _ => 0)
      = (((List.range' 0 (entriesOf
            ⟨"cidY", some "0xaa", none, some [⟨"k1", none⟩], none, none⟩).length).map
              RentAction.initialKeyTry)
          ++ (pollForKey (fun _ => none) (fun _ => 0) 0 0).1,
         .error keyStillUnavailableMessage)
    ∧ strIncludes keyStillUnavailableMessage "Unable to retrieve decryption key" = true :=
  C9_poll_bounded_ceiling (fun _ => none)
    [⟨"cidY", some "0xaa", none, some [⟨"k1", none⟩], none, none⟩] "cidY"
    (some "0xbb") (some "0.05") "0xC0FFEE"
    (fun _ => none) (fun _ => none) (fun _ => 0)
    ⟨"cidY", some "0xaa", none, some [⟨"k1", none⟩], none, none⟩
    (by decide) (by decide) (by decide) (fun _ => rfl) (fun _ => rfl)
